import Mathlib

/-!
Shallow embedding of the upload-ingestion handler of MStanchin/zipline
(`src/pages/api/upload.ts`), together with the properties checked against
its specification.  The handler is modelled after authentication (the
source returns `forbidden` before the part in scope); external
collaborators (filename formatter, expiry parser, mime guesser, URI
codecs, the metadata store's set of existing names, the GPS scrubber's
outcome, the clock) are carried in an `Env` record of explicit functions
and values, so every definition stays executable.
-/

set_option maxHeartbeats 1000000

namespace Zipline

/-! ### Kernel-reducible string helpers

Core `String` loops (splitOn, replace, toLower, startsWith) do not reduce in
the kernel, so the JS string operations the handler performs are modelled
structurally over `String.data`. -/

/-- `pat` begins the list `hay`. -/
def startsWithList : List Char → List Char → Bool
  | _, [] => true
  | [], _ :: _ => false
  | a :: as, b :: bs => a == b && startsWithList as bs

/-- `pat` occurs somewhere in `hay` (JS `s.match(pat)` with a plain pattern). -/
def containsList : List Char → List Char → Bool
  | [], pat => pat.isEmpty
  | a :: rest, pat => startsWithList (a :: rest) pat || containsList rest pat

/-- `String.split` on a single separator character, as a list of char lists. -/
def splitCharList (c : Char) : List Char → List (List Char)
  | [] => [[]]
  | a :: rest =>
    let r := splitCharList c rest
    if a == c then [] :: r
    else
      match r with
      | [] => [[a]]
      | h :: t => (a :: h) :: t

/-- JS `s.split(c)` for a one-character separator. -/
def splitChar (c : Char) (s : String) : List String :=
  (splitCharList c s.data).map String.mk

/-- JS `s.toLowerCase()` (ASCII, which is all the handler compares). -/
def lowerStr (s : String) : String :=
  String.mk (s.data.map Char.toLower)

/-- Replace the first occurrence of `pat` (JS `String.prototype.replace` with a
string pattern replaces only the first match). -/
def replaceFirstList (pat subst : List Char) : List Char → List Char
  | [] => []
  | a :: rest =>
    if startsWithList (a :: rest) pat && !pat.isEmpty then
      subst ++ (a :: rest).drop pat.length
    else a :: replaceFirstList pat subst rest

/-- JS `s.replace(pat, subst)` (first occurrence only). -/
def replaceFirst (s pat subst : String) : String :=
  String.mk (replaceFirstList pat.data subst.data s.data)

def natOfDigits : List Char → Option Nat → Option Nat
  | [], acc => acc
  | c :: rest, acc =>
    if c.isDigit then natOfDigits rest (some ((acc.getD 0) * 10 + (c.toNat - 48)))
    else none

/-- JS `Number(s)` restricted to optionally-signed decimal integers; `none`
stands for NaN. -/
def jsNumberInt (s : String) : Option Int :=
  match s.data with
  | '-' :: rest => (natOfDigits rest none).map (fun n => -(n : Int))
  | l => (natOfDigits l none).map (fun n => (n : Int))

/-- `s` starts with `p`. -/
def strStartsWith (s p : String) : Bool :=
  startsWithList s.data p.data

/-- JS truthiness of an optional string header: present and non-empty. -/
def isTruthy : Option String → Bool
  | none => false
  | some s => !(s == "")

/-- JS `a || b` for a string header: the header unless absent or empty. -/
def jsOr (a : Option String) (b : String) : String :=
  match a with
  | some s => if s == "" then b else s
  | none => b

/-- `name.split('.')` / `pop()` extension extraction of upload.ts lines 181 and 263:
empty when the name has no dot, otherwise the part after the last dot. -/
def extOf (s : String) : String :=
  let parts := splitChar '.' s
  if parts.length == 1 then "" else parts.getLastD ""

/-- Node `path.parse(name).ext.replace('.', '')` as used on line 286: like `extOf`
except that a leading-dot name with no further dot has no extension. -/
def nodeExt (s : String) : String :=
  let parts := splitChar '.' s
  if parts.length ≤ 1 then ""
  else if startsWithList s.data ['.'] && parts.length == 2 then ""
  else parts.getLastD ""

/-- JS `s.toLowerCase().match('true')` succeeds iff the lowered string contains
"true" as a substring (line 315). -/
def hasTrueSub (s : String) : Bool :=
  containsList (lowerStr s).data ['t', 'r', 'u', 'e']

/-- The configuration values (`zconfig`) the handler reads. -/
structure Config where
  ratelimitAdmin : Int
  ratelimitUser : Int
  adminLimit : Nat
  userLimit : Nat
  disabledExtensions : List String
  assumeMimetypes : Bool
  defaultExpiration : Option String
  defaultFormat : String
  chunksEnabled : Bool
  exifEnabled : Bool
  exifRemoveGps : Bool
  returnHttps : Bool
  route : String
  deriving Repr, DecidableEq

/-- The authenticated user row, with the fields the handler touches.
`ratelimit` is the stored timestamp in milliseconds (`Date.getTime`). -/
structure User where
  id : Nat
  username : String
  admin : Bool
  ratelimit : Option Int
  domains : List String
  deriving Repr, DecidableEq

/-- The request headers the handler consumes.  Numeric headers are carried
pre-coerced the way JS `Number(...)` classifies them: `none` = header absent,
`some none` = present but NaN, `some (some v)` = present with value `v`. -/
structure Headers where
  contentRange : Option String
  expiresAt : Option String
  format : Option String
  imageCompressionPercent : Option (Option Rat)
  maxViews : Option (Option Int)
  folder : Option (Option Int)
  xZiplineFilename : Option String
  chunkFilename : Option String
  chunkMimetype : Option String
  chunkIdentifier : Option String
  chunkLastchunk : Option String
  originalName : Option String
  overrideDomain : Option String
  password : Option String
  zws : Option String
  embed : Option String
  uploadtext : Option String
  noJson : Option String
  host : String
  deriving Repr, DecidableEq

/-- One multer file: the fields of `req.files[i]` the handler reads. -/
structure FileInput where
  originalname : String
  mimetype : String
  size : Nat
  deriving Repr, DecidableEq

/-- The row written by `prisma.file.create`. -/
structure FileRecord where
  name : String
  mimetype : String
  userId : Nat
  embed : Bool
  password : Option String
  expiresAt : Option Nat
  maxViews : Option Int
  originalName : Option String
  size : Nat
  folderId : Option Int
  deriving Repr, DecidableEq

/-- External collaborators and ambient values, passed explicitly. -/
structure Env where
  nowMs : Int
  decodeURI : String → String
  encodeURI : String → String
  formatFileName : String → String → String
  parseExpiry : String → Except String Nat
  guess : String → Option String
  hashPassword : String → String
  invisToken : String
  domainPick : Nat
  existingNames : List String
  folderOwned : Int → Nat → Bool
  gpsStripOk : Bool

/-- Observable side effects of one request, in the order they are performed. -/
inductive Ev where
  | checkRun (i : Nat)
  | chunkWritten (identifier : String) (start stop : Int)
  | workerSpawned
  | created (r : FileRecord)
  | saved (name : String)
  deriving Repr, DecidableEq

/-- Outcome of the rate-limit block (lines 33-70). -/
inductive RLOutcome where
  | proceed
  | ratelimited (remainingMs : Int)
  deriving Repr, DecidableEq

/-- The `response` object accumulated by the handler (lines 79-87). -/
structure RespState where
  files : List String
  expiresAt : Option Nat
  removedGps : Option Bool
  assumedMimetype : Option (Option String)
  folder : Option Int
  deriving Repr, DecidableEq

/-- Results the body after the rate-limit block can produce. -/
inductive BodyRes where
  | badRequest (msg : String)
  | jsonOk (resp : RespState)
  | jsonPending (files : List String)
  | jsonSuccess
  | plainOk (body : String)
  deriving Repr, DecidableEq

/-- Results of the whole handler. -/
inductive HRes where
  | ratelimited (remainingMs : Int)
  | badRequest (msg : String)
  | jsonOk (resp : RespState)
  | jsonPending (files : List String)
  | jsonSuccess
  | plainOk (body : String)
  deriving Repr, DecidableEq

def BodyRes.toHRes : BodyRes → HRes
  | .badRequest m => .badRequest m
  | .jsonOk r => .jsonOk r
  | .jsonPending fs => .jsonPending fs
  | .jsonSuccess => .jsonSuccess
  | .plainOk b => .plainOk b

def HRes.isRatelimited : HRes → Bool
  | .ratelimited _ => true
  | _ => false

def HRes.isBadRequest : HRes → Bool
  | .badRequest _ => true
  | _ => false

/-- Lines 33-70: the rate-limit block.  Returns the outcome and the user's
`ratelimit` column after the block (the two `prisma.user.update` calls).
The nested `if (user.administrator && zconfig.ratelimit.user > 0)` inside the
`!user.administrator` branch is kept exactly as the source has it. -/
def rateLimitStep (cfg : Config) (now : Int) (hasCR : Bool) (u : User) :
    RLOutcome × Option Int :=
  if u.ratelimit.isSome && !hasCR then
    let t := u.ratelimit.getD 0
    let remaining := t - now
    if remaining ≤ 0 then (.proceed, none)
    else (.ratelimited remaining, u.ratelimit)
  else if u.ratelimit.isNone && !hasCR then
    if u.admin && decide (0 < cfg.ratelimitAdmin) then
      (.proceed, some (now + cfg.ratelimitAdmin * 1000))
    else if !u.admin && decide (0 < cfg.ratelimitUser) then
      if u.admin && decide (0 < cfg.ratelimitUser) then
        (.proceed, some (now + cfg.ratelimitUser * 1000))
      else (.proceed, u.ratelimit)
    else (.proceed, u.ratelimit)
  else (.proceed, u.ratelimit)

/-- Lines 88-106: parse the `expires-at` header, then let a configured default
expiration override the expiry used for the record; the response field keeps
the client-derived value.  Returns `(expiry for the record, response.expiresAt)`. -/
def computeExpiry (env : Env) (cfg : Config) (hdr : Headers) :
    Except String (Option Nat × Option Nat) :=
  let step1 : Except String (Option Nat × Option Nat) :=
    if isTruthy hdr.expiresAt then
      match env.parseExpiry (hdr.expiresAt.getD "") with
      | .ok d => .ok (some d, some d)
      | .error e => .error e
    else .ok (none, none)
  match step1 with
  | .error e => .error e
  | .ok (expiry, respExpiry) =>
    if isTruthy cfg.defaultExpiration then
      match env.parseExpiry (cfg.defaultExpiration.getD "") with
      | .ok d => .ok (some d, respExpiry)
      | .error e => .error (e ++ " (UPLOADER_DEFAULT_EXPIRATION)")
    else .ok (expiry, respExpiry)

/-- Modelled from the spec: the closed enumeration of name formats exported by
`lib/format` (`NameFormats`), which is not under src/; the spec lists random,
date, uuid, name and gfycat-style as the supported kinds. -/
def NameFormats : List String := ["random", "date", "uuid", "name", "gfycat"]

/-- Lines 108-111: requested format lowered, falling back to `random` when the
requested kind is not a known format. -/
def formatOf (cfg : Config) (hdr : Headers) : String :=
  let rawFormat := lowerStr (jsOr hdr.format cfg.defaultFormat)
  if NameFormats.contains rawFormat then rawFormat else "random"

/-- Lines 113-119: the `image-compression-percent` header check.  `isNaN(null)`
is false and `null` compares false against the bounds, so an absent header
passes through as `null`. -/
def parsePercent : Option (Option Rat) → Except String (Option Rat)
  | none => .ok none
  | some none => .error "invalid image compression percent (invalid number)"
  | some (some q) =>
    if q < 0 ∨ 100 < q then .error "invalid image compression percent (% < 0 || % > 100)"
    else .ok (some q)

/-- Lines 121-123: the `max-views` header check. -/
def parseMaxViews : Option (Option Int) → Except String (Option Int)
  | none => .ok none
  | some none => .error "invalid max views (invalid number)"
  | some (some n) =>
    if n < 0 then .error "invalid max views (max views < 0)"
    else .ok (some n)

/-- Lines 125-137: the `x-zipline-folder` lookup.  A NaN or zero value is falsy
so the whole block is skipped (the inner isNaN rejection is unreachable);
otherwise the folder must belong to the user. -/
def folderStep (env : Env) (u : User) : Option (Option Int) → Except String (Option Int)
  | none => .ok none
  | some none => .ok none
  | some (some n) =>
    if n = 0 then .ok none
    else if env.folderOwned n u.id then .ok (some n)
    else .error "invalid folder id (no folder found)"

/-- Line 257: the per-class size limit. -/
def sizeLimit (cfg : Config) (u : User) : Nat :=
  if u.admin then cfg.adminLimit else cfg.userLimit

/-- Lines 254-276: the per-file validation chain, in source order, returning the
`badRequest` reason of the first failing check.  `dbNames` is the set of public
names present in the metadata store when the check runs. -/
def validateFile (cfg : Config) (env : Env) (hdr : Headers) (u : User) (fmt : String)
    (dbNames : List String) (i : Nat) (f : FileInput) : Option String :=
  if sizeLimit cfg u < f.size then
    some ("file[" ++ toString i ++ "]: size too big")
  else if f.originalname = "" then
    some ("file[" ++ toString i ++ "]: no filename")
  else
    let decodedName := env.decodeURI f.originalname
    if cfg.disabledExtensions.contains (extOf decodedName) then
      some ("file[" ++ toString i ++ "]: disabled extension recieved: " ++ extOf decodedName)
    else if fmt = "name" ∨ isTruthy hdr.xZiplineFilename = true then
      if dbNames.contains (jsOr hdr.xZiplineFilename decodedName) then
        some ("file[" ++ toString i ++ "]: filename already exists: \x27" ++ decodedName ++ "\x27")
      else none
    else none

/-- Line 296: compression is used when a nonzero percentage was supplied and the
client-declared mimetype is an image type. -/
def compressionUsed (icp : Option Rat) (clientMimetype : String) : Bool :=
  (match icp with | none => false | some q => !(q == 0)) && strStartsWith clientMimetype "image/"

/-- Lines 283-294: the assume-mimetypes step.  Returns the effective mimetype and
the `response.assumed_mimetype` update (`none` = field untouched, `some none` =
set to false, `some (some m)` = set to the guessed type). -/
def assumeStep (cfg : Config) (env : Env) (f : FileInput) (decodedName : String) :
    String × Option (Option String) :=
  if f.mimetype = "application/octet-stream" ∧ cfg.assumeMimetypes = true then
    match env.guess (nodeExt decodedName) with
    | none => (f.mimetype, some none)
    | some m => (m, some (some m))
  else (f.mimetype, none)

/-- Line 301: the mimetype stored on the record. -/
def storedMimetype (cfg : Config) (env : Env) (hdr : Headers) (icp : Option Rat)
    (f : FileInput) (decodedName : String) : String :=
  if isTruthy hdr.uploadtext then "text/plain"
  else if compressionUsed icp f.mimetype then "image/jpeg"
  else (assumeStep cfg env f decodedName).1

/-- `${ext ? '.' : ''}${ext}`. -/
def extSuffix (ext : String) : String := if ext = "" then "" else "." ++ ext

/-- Line 300: the public name stored on the record. -/
def storedName (env : Env) (fmt : String) (icp : Option Rat) (f : FileInput)
    (decodedName : String) : String :=
  env.formatFileName fmt decodedName ++
    (if compressionUsed icp f.mimetype then ".jpg" else extSuffix (extOf decodedName))

def protoStr (cfg : Config) : String := if cfg.returnHttps then "https" else "http"

/-- Lines 329-336 (and 195-202): domain priority: override header, then a random
pick among the user's domains, then the request host. -/
def chooseDomain (cfg : Config) (env : Env) (u : User) (hdr : Headers) : String :=
  if isTruthy hdr.overrideDomain then
    protoStr cfg ++ "://" ++ jsOr hdr.overrideDomain ""
  else if u.domains.length ≠ 0 then
    u.domains.getD (env.domainPick % u.domains.length) ""
  else
    protoStr cfg ++ "://" ++ hdr.host

def routeStr (cfg : Config) : String :=
  if cfg.route = "/" then "/" else cfg.route ++ "/"

/-- Lines 338-340 (and 204-206): the returned URL. -/
def responseUrl (cfg : Config) (env : Env) (u : User) (hdr : Headers) (tail : String) : String :=
  chooseDomain cfg env u hdr ++ routeStr cfg ++ tail

/-- Line 315: an invisible alias is requested when the `zws` header is present
and its lowering contains "true". -/
def zwsRequested (hdr : Headers) : Bool :=
  match hdr.zws with
  | none => false
  | some s => hasTrueSub s

/-- The URL pushed onto `response.files` for one single-shot file. -/
def urlOfFile (cfg : Config) (env : Env) (u : User) (hdr : Headers) (fmt : String)
    (icp : Option Rat) (f : FileInput) : String :=
  responseUrl cfg env u hdr
    (if zwsRequested hdr then env.invisToken
     else env.encodeURI (storedName env fmt icp f (env.decodeURI f.originalname)))

/-- Lines 254-363: processing of the i-th file of a single-shot batch: validation
chain, record creation, blob save, URL push, best-effort GPS strip.  Returns the
updated response and store contents (or the validation failure), plus the trace
of effects. -/
def processFile (cfg : Config) (env : Env) (u : User) (hdr : Headers) (fmt : String)
    (icp : Option Rat) (mv : Option Int) (expiry : Option Nat) (folderToAdd : Option Int)
    (dbNames : List String) (i : Nat) (f : FileInput) (resp : RespState) :
    Except String (RespState × List String) × List Ev :=
  match validateFile cfg env hdr u fmt dbNames i f with
  | some e => (.error e, [.checkRun i])
  | none =>
    let decodedName := env.decodeURI f.originalname
    let r0 : FileRecord := {
      name := storedName env fmt icp f decodedName
      mimetype := storedMimetype cfg env hdr icp f decodedName
      userId := u.id
      embed := isTruthy hdr.embed
      password := if isTruthy hdr.password then some (env.hashPassword (jsOr hdr.password "")) else none
      expiresAt := expiry
      maxViews := mv
      originalName := if isTruthy hdr.originalName then some decodedName else none
      size := f.size
      folderId := folderToAdd }
    let resp1 : RespState := { resp with
      assumedMimetype :=
        match (assumeStep cfg env f decodedName).2 with
        | none => resp.assumedMimetype
        | some a => some a
      files := resp.files ++ [urlOfFile cfg env u hdr fmt icp f] }
    let resp2 : RespState :=
      if cfg.exifEnabled = true ∧ cfg.exifRemoveGps = true ∧ strStartsWith r0.mimetype "image/" = true then
        { resp1 with removedGps := some env.gpsStripOk }
      else resp1
    (.ok (resp2, dbNames ++ [r0.name]), [.checkRun i, .created r0, .saved r0.name])

/-- The `for` loop of lines 254-363, aborting the batch at the first failure. -/
def runFiles (cfg : Config) (env : Env) (u : User) (hdr : Headers) (fmt : String)
    (icp : Option Rat) (mv : Option Int) (expiry : Option Nat) (folderToAdd : Option Int) :
    List FileInput → Nat → List String → RespState → Except String RespState × List Ev
  | [], _, _, resp => (.ok resp, [])
  | f :: rest, i, dbNames, resp =>
    match processFile cfg env u hdr fmt icp mv expiry folderToAdd dbNames i f resp with
    | (.error e, evs) => (.error e, evs)
    | (.ok (resp2, db2), evs) =>
      let next := runFiles cfg env u hdr fmt icp mv expiry folderToAdd rest (i + 1) db2 resp2
      (next.1, evs ++ next.2)

/-- Lines 151-156: `bytes start-end/total` parsing via the source's replace/split
chain; a part JS `Number` would turn into NaN is carried as 0 here (the claims
never exercise malformed range headers). -/
def parseContentRange (s : String) : Int × Int × Int :=
  let pieces := splitChar '/' (replaceFirst (replaceFirst s "bytes " "") "-" "/")
  match pieces.map (fun x => (jsNumberInt x).getD 0) with
  | [a, b, c] => (a, b, c)
  | _ => (0, 0, 0)

/-- Lines 140-237: the chunked path.  Every request writes its range to temp
storage; the request flagged as the last chunk creates the FileRecord and spawns
the reassembly worker, answering `pending`. -/
def chunkedBranch (cfg : Config) (env : Env) (u : User) (hdr : Headers) (fmt : String)
    (folderToAdd : Option Int) : BodyRes × List Ev :=
  if fmt = "name" ∧ env.existingNames.contains (hdr.chunkFilename.getD "") = true then
    (.badRequest "filename already exists (conflict: NAME format)", [])
  else
    let r := parseContentRange (hdr.contentRange.getD "")
    let identifier := hdr.chunkIdentifier.getD ""
    let filename := hdr.chunkFilename.getD ""
    let evs0 : List Ev := [.chunkWritten identifier r.1 r.2.1]
    if hdr.chunkLastchunk == some "true" then
      let r0 : FileRecord := {
        name := env.formatFileName fmt filename ++ extSuffix (extOf filename)
        mimetype := if isTruthy hdr.uploadtext then "text/plain" else hdr.chunkMimetype.getD ""
        userId := u.id
        embed := false
        password := none
        expiresAt := none
        maxViews := none
        originalName := if isTruthy hdr.originalName then some filename else none
        size := 0
        folderId := folderToAdd }
      let url := responseUrl cfg env u hdr (env.encodeURI r0.name)
      (.jsonPending [url], evs0 ++ [.created r0, .workerSpawned])
    else (.jsonSuccess, evs0)

/-- Lines 79-371: everything after the rate-limit block. -/
def handlerBody (cfg : Config) (env : Env) (u : User) (hdr : Headers)
    (files : List FileInput) : BodyRes × List Ev :=
  match computeExpiry env cfg hdr with
  | .error e => (.badRequest e, [])
  | .ok (expiry, respExpiry) =>
    let fmt := formatOf cfg hdr
    match parsePercent hdr.imageCompressionPercent with
    | .error e => (.badRequest e, [])
    | .ok icp =>
      match parseMaxViews hdr.maxViews with
      | .error e => (.badRequest e, [])
      | .ok mv =>
        match folderStep env u hdr.folder with
        | .error e => (.badRequest e, [])
        | .ok folderToAdd =>
          if isTruthy hdr.contentRange && cfg.chunksEnabled then
            chunkedBranch cfg env u hdr fmt folderToAdd
          else if files.length == 0 then (.badRequest "no files", [])
          else
            let resp0 : RespState := {
              files := []
              expiresAt := respExpiry
              removedGps := none
              assumedMimetype := none
              folder := folderToAdd }
            match runFiles cfg env u hdr fmt icp mv expiry folderToAdd files 0 env.existingNames resp0 with
            | (.error e, evs) => (.badRequest e, evs)
            | (.ok resp, evs) =>
              if isTruthy hdr.noJson then (.plainOk (String.intercalate "," resp.files), evs)
              else (.jsonOk resp, evs)

/-- The whole handler output: the response, the effect trace, and the user's
rate-limit column after the request. -/
structure HOut where
  res : HRes
  events : List Ev
  ratelimitAfter : Option Int
  deriving Repr, DecidableEq

/-- Lines 22-371 after authentication: rate-limit block, then the body. -/
def handler (cfg : Config) (env : Env) (u : User) (hdr : Headers)
    (files : List FileInput) : HOut :=
  match rateLimitStep cfg env.nowMs (isTruthy hdr.contentRange) u with
  | (.ratelimited ms, after) => ⟨.ratelimited ms, [], after⟩
  | (.proceed, after) =>
    let body := handlerBody cfg env u hdr files
    ⟨body.1.toHRes, body.2, after⟩

/-! ### Specification-side definitions -/

/-- First failure of an ordered list of independent checks. -/
def firstSome : List (Option String) → Option String
  | [] => none
  | some e :: _ => some e
  | none :: rest => firstSome rest

/-- The four validation checks as the spec words them, as independent checks in
the stated order: size within class limit, filename present, extension not
disabled, then (name format or explicit filename override) no name conflict. -/
def specChecks (cfg : Config) (env : Env) (hdr : Headers) (u : User) (fmt : String)
    (dbNames : List String) (i : Nat) (f : FileInput) : List (Option String) :=
  [ if sizeLimit cfg u < f.size then some ("file[" ++ toString i ++ "]: size too big") else none,
    if f.originalname = "" then some ("file[" ++ toString i ++ "]: no filename") else none,
    if cfg.disabledExtensions.contains (extOf (env.decodeURI f.originalname)) then
      some ("file[" ++ toString i ++ "]: disabled extension recieved: "
        ++ extOf (env.decodeURI f.originalname))
    else none,
    if (fmt = "name" ∨ isTruthy hdr.xZiplineFilename = true)
        ∧ dbNames.contains (jsOr hdr.xZiplineFilename (env.decodeURI f.originalname)) = true then
      some ("file[" ++ toString i ++ "]: filename already exists: \x27"
        ++ env.decodeURI f.originalname ++ "\x27")
    else none ]

/-- The mimetype priority chain as the spec words it: treat-as-text override,
then compression-forced JPEG, then the guessed type when the declared type is
the octet-stream placeholder and the feature is on, else the declared type. -/
def specMimetype (cfg : Config) (env : Env) (uploadtext : Bool) (icp : Option Rat)
    (f : FileInput) (decodedName : String) : String :=
  if uploadtext then "text/plain"
  else if compressionUsed icp f.mimetype then "image/jpeg"
  else if f.mimetype = "application/octet-stream" ∧ cfg.assumeMimetypes = true then
    match env.guess (nodeExt decodedName) with
    | some m => m
    | none => f.mimetype
  else f.mimetype

/-- One stored chunk of an upload session: its byte range and payload. -/
structure Chunk where
  start : Nat
  stop : Nat
  data : List Nat
  deriving Repr, DecidableEq

/-- How many stored ranges cover a byte offset. -/
def coverCount (ranges : List (Nat × Nat)) (off : Nat) : Nat :=
  (ranges.filter (fun r => decide (r.1 ≤ off) && decide (off < r.2))).length

/-- Every byte offset in `[0, total)` is covered by exactly one stored range. -/
def exactCoverB (ranges : List (Nat × Nat)) (total : Nat) : Bool :=
  (List.range total).all (fun off => coverCount ranges off == 1)

def insertByStart (c : Chunk) : List Chunk → List Chunk
  | [] => [c]
  | d :: rest => if c.start ≤ d.start then c :: d :: rest else d :: insertByStart c rest

def sortByStart : List Chunk → List Chunk
  | [] => []
  | c :: rest => insertByStart c (sortByStart rest)

/-- Modelled from the spec: the reassembly step of the finalization worker
(`dist/worker/upload.js`, not under src/): it rereads all chunk files for the
identifier, concatenates them in ascending start order, and fails with a
`ReassemblyError` if any byte offset from 0 to `total` is not covered by
exactly one stored range. -/
def reassemble (chunks : List Chunk) (total : Nat) : Except String (List Nat) :=
  if exactCoverB (chunks.map fun c => (c.start, c.stop)) total then
    .ok ((sortByStart chunks).foldl (fun acc c => acc ++ c.data) [])
  else .error "ReassemblyError"

/-- A trace contains a record-creation effect. -/
def containsCreated (evs : List Ev) : Bool :=
  evs.any (fun e => match e with | .created _ => true | _ => false)

/-- No blob-save effect occurs before the first record-creation effect. -/
def noSaveBeforeCreate : List Ev → Bool
  | [] => true
  | .saved _ :: _ => false
  | .created _ :: _ => true
  | _ :: rest => noSaveBeforeCreate rest

/-! ### Concrete instances used to exercise the theorems -/

def cfgW : Config := {
  ratelimitAdmin := 7
  ratelimitUser := 5
  adminLimit := 1000000
  userLimit := 1000
  disabledExtensions := ["exe"]
  assumeMimetypes := true
  defaultExpiration := none
  defaultFormat := "random"
  chunksEnabled := true
  exifEnabled := true
  exifRemoveGps := true
  returnHttps := false
  route := "/u" }

def envW : Env := {
  nowMs := 1000
  decodeURI := fun s => s
  encodeURI := fun s => s
  formatFileName := fun _ n => "gen_" ++ n
  parseExpiry := fun s => if s = "1d" then .ok 100 else if s = "2d" then .ok 200 else .error "invalid date"
  guess := fun e => if e = "png" then some "image/png" else none
  hashPassword := fun s => "h_" ++ s
  invisToken := "inv123"
  domainPick := 0
  existingNames := ["taken.txt"]
  folderOwned := fun _ _ => false
  gpsStripOk := false }

def uW : User := { id := 1, username := "alice", admin := false, ratelimit := none, domains := [] }

def uAdminStale : User := { id := 2, username := "root", admin := true, ratelimit := some 5, domains := [] }

def hdrBase : Headers := {
  contentRange := none
  expiresAt := none
  format := none
  imageCompressionPercent := none
  maxViews := none
  folder := none
  xZiplineFilename := none
  chunkFilename := none
  chunkMimetype := none
  chunkIdentifier := none
  chunkLastchunk := none
  originalName := none
  overrideDomain := none
  password := none
  zws := none
  embed := none
  uploadtext := none
  noJson := none
  host := "zp.example" }

def hdrCR : Headers := { hdrBase with contentRange := some "bytes 0-5/10" }

def hdrLastChunk : Headers := { hdrBase with
  contentRange := some "bytes 6-10/10"
  chunkFilename := some "a.png"
  chunkMimetype := some "image/png"
  chunkIdentifier := some "id1"
  chunkLastchunk := some "true" }

def hdrBadIcp : Headers := { hdrBase with imageCompressionPercent := some (some 150) }

def hdrExpiry : Headers := { hdrBase with expiresAt := some "1d" }

def cfgDefaultExp : Config := { cfgW with defaultExpiration := some "2d" }

def fileW : FileInput := { originalname := "photo.png", mimetype := "image/png", size := 10 }

def gapChunks : List Chunk := [⟨0, 5, [1, 1, 1, 1, 1]⟩, ⟨6, 10, [2, 2, 2, 2]⟩]

end Zipline

namespace Zipline

/-! ### Helper lemmas -/

theorem toHRes_never_ratelimited (b : BodyRes) : b.toHRes.isRatelimited = false := by
  cases b <;> rfl

theorem rateLimitStep_contentRange (cfg : Config) (now : Int) (u : User) :
    rateLimitStep cfg now true u = (.proceed, u.ratelimit) := by
  unfold rateLimitStep
  simp

theorem rateLimitStep_standard_user (cfg : Config) (now : Int) (u : User)
    (hadmin : u.admin = false) (hrl : u.ratelimit = none) :
    rateLimitStep cfg now false u = (.proceed, none) := by
  unfold rateLimitStep
  simp [hadmin, hrl]

theorem rateLimitStep_elapsed (cfg : Config) (now : Int) (u : User) (t : Int)
    (hrl : u.ratelimit = some t) (hel : t - now ≤ 0) :
    rateLimitStep cfg now false u = (.proceed, none) := by
  unfold rateLimitStep
  simp [hrl, hel]

/-! ### Claim theorems -/

/-- C3: for every file of a single-shot batch, the validation chain of the
handler equals the first failure of the four independent checks in the spec's
order (size within class limit, then filename present, then extension not
disabled, then public-name conflict for name format or an explicit filename
override), each failure carrying the reason string that names the failing
file's index. -/
theorem validation_runs_in_spec_order (cfg : Config) (env : Env) (hdr : Headers) (u : User)
    (fmt : String) (dbNames : List String) (i : Nat) (f : FileInput) :
    validateFile cfg env hdr u fmt dbNames i f
      = firstSome (specChecks cfg env hdr u fmt dbNames i f) := by
  unfold validateFile specChecks
  by_cases h1 : sizeLimit cfg u < f.size
  · simp [h1, firstSome]
  · by_cases h2 : f.originalname = ""
    · simp [h1, h2, firstSome]
    · by_cases h3 : extOf (env.decodeURI f.originalname) ∈ cfg.disabledExtensions
      · simp [h1, h2, h3, firstSome]
      · by_cases h4 : fmt = "name" ∨ isTruthy hdr.xZiplineFilename = true
        · by_cases h5 : jsOr hdr.xZiplineFilename (env.decodeURI f.originalname) ∈ dbNames
          · simp [h1, h2, h3, h4, h5, firstSome]
          · simp [h1, h2, h3, h4, h5, firstSome]
        · simp [h1, h2, h3, h4, firstSome]

/-- C2: for each file of a single-shot upload, the effect trace of processing
the file never performs the blob save before the record creation, and a record
creation appears in the trace only when the validation chain for that file
passed. -/
theorem record_created_after_validation_blob_after_record (cfg : Config) (env : Env)
    (u : User) (hdr : Headers) (fmt : String) (icp : Option Rat) (mv : Option Int)
    (expiry : Option Nat) (folderToAdd : Option Int) (dbNames : List String) (i : Nat)
    (f : FileInput) (resp : RespState) :
    noSaveBeforeCreate (processFile cfg env u hdr fmt icp mv expiry folderToAdd dbNames i f resp).2 = true
    ∧ (!containsCreated (processFile cfg env u hdr fmt icp mv expiry folderToAdd dbNames i f resp).2
        || (validateFile cfg env hdr u fmt dbNames i f).isNone) = true := by
  cases h : validateFile cfg env hdr u fmt dbNames i f with
  | some e => simp [processFile, h, noSaveBeforeCreate, containsCreated]
  | none => simp [processFile, h, noSaveBeforeCreate, containsCreated]

/-- C6: the mimetype stored for a single-shot file follows the priority chain
the spec states (treat-as-text override, then compression-forced `image/jpeg`,
then the client-declared mimetype with the guessed type substituted only for an
octet-stream placeholder when the assume-mimetypes feature is on), and when
compression applies the stored name's extension is forced to `.jpg`. -/
theorem mimetype_priority (cfg : Config) (env : Env) (hdr : Headers) (fmt : String)
    (icp : Option Rat) (f : FileInput) (dn : String) :
    storedMimetype cfg env hdr icp f dn = specMimetype cfg env (isTruthy hdr.uploadtext) icp f dn
    ∧ (compressionUsed icp f.mimetype = false
       ∨ storedName env fmt icp f dn = env.formatFileName fmt dn ++ ".jpg") := by
  constructor
  · unfold storedMimetype specMimetype assumeStep
    by_cases h1 : isTruthy hdr.uploadtext = true
    · simp [h1]
    · by_cases h2 : compressionUsed icp f.mimetype = true
      · simp [h1, h2]
      · by_cases h3 : f.mimetype = "application/octet-stream" ∧ cfg.assumeMimetypes = true
        · simp only [h1, h2, h3, if_true, if_false, Bool.false_eq_true, if_neg, ite_false,
            ite_true]
          cases env.guess (nodeExt dn) <;> simp
        · simp [h1, h2, h3]
  · by_cases h : compressionUsed icp f.mimetype = true
    · right
      simp [storedName, h]
    · left
      simpa using h

/-- C5: a request carrying a content-range header is never rejected as
rate-limited and leaves the user's rate-limit timestamp exactly as it was:
the rate-limit block neither clears nor sets it. -/
theorem chunk_requests_skip_ratelimit (cfg : Config) (env : Env) (u : User) (hdr : Headers)
    (files : List FileInput) (h : isTruthy hdr.contentRange = true) :
    (handler cfg env u hdr files).res.isRatelimited = false
    ∧ (handler cfg env u hdr files).ratelimitAfter = u.ratelimit := by
  unfold handler
  rw [h, rateLimitStep_contentRange]
  exact ⟨toHRes_never_ratelimited _, rfl⟩

theorem chunk_requests_skip_ratelimit_witness :
    (handler cfgW envW uW hdrCR []).res.isRatelimited = false
    ∧ (handler cfgW envW uW hdrCR []).ratelimitAfter = uW.ratelimit :=
  chunk_requests_skip_ratelimit cfgW envW uW hdrCR [] (by rfl)

/-- C10: a non-administrator with no active rate-limit timestamp never receives
one from a non-chunked request, whatever (positive) user cooldown is
configured: the branch that would set it is guarded by a nested administrator
check that cannot hold there. -/
theorem standard_user_cooldown_never_set (cfg : Config) (env : Env) (u : User) (hdr : Headers)
    (files : List FileInput) (hadmin : u.admin = false) (hrl : u.ratelimit = none)
    (hcr : isTruthy hdr.contentRange = false) :
    (handler cfg env u hdr files).ratelimitAfter = none := by
  unfold handler
  rw [hcr, rateLimitStep_standard_user cfg env.nowMs u hadmin hrl]

theorem standard_user_cooldown_never_set_witness :
    (handler cfgW envW uW hdrBase [fileW]).ratelimitAfter = none :=
  standard_user_cooldown_never_set cfgW envW uW hdrBase [fileW] (by rfl) (by rfl) (by rfl)

/-- C4 counterexample: an administrator whose stored timestamp (5 ms) has
elapsed at request time (1000 ms), with a positive configured administrator
cooldown, has the request proceed but ends the request with NO rate-limit
timestamp at all — not the fresh future cooldown timestamp the claim asserts. -/
theorem admin_cooldown_not_refreshed_counterexample :
    uAdminStale.admin = true ∧ uAdminStale.ratelimit = some 5
    ∧ (5 : Int) - envW.nowMs ≤ 0 ∧ 0 < cfgW.ratelimitAdmin
    ∧ (handler cfgW envW uAdminStale hdrBase [fileW]).res.isRatelimited = false
    ∧ (handler cfgW envW uAdminStale hdrBase [fileW]).ratelimitAfter = none := by
  refine ⟨rfl, rfl, by decide, by decide, ?_, ?_⟩ <;> rfl

/-- C4 (amended): an administrator whose stored rate-limit timestamp has already
elapsed at request time has the non-chunked request proceed and the stale
timestamp cleared, but NO fresh cooldown timestamp is set during that request
(one is only set by a later request that arrives with no timestamp stored). -/
theorem admin_elapsed_ratelimit_cleared (cfg : Config) (env : Env) (u : User) (hdr : Headers)
    (files : List FileInput) (t : Int) (_hadmin : u.admin = true) (hrl : u.ratelimit = some t)
    (hel : t - env.nowMs ≤ 0) (hcr : isTruthy hdr.contentRange = false) :
    (handler cfg env u hdr files).res.isRatelimited = false
    ∧ (handler cfg env u hdr files).ratelimitAfter = none := by
  unfold handler
  rw [hcr, rateLimitStep_elapsed cfg env.nowMs u t hrl hel]
  exact ⟨toHRes_never_ratelimited _, rfl⟩

theorem admin_elapsed_ratelimit_cleared_witness :
    (handler cfgW envW uAdminStale hdrBase [fileW]).res.isRatelimited = false
    ∧ (handler cfgW envW uAdminStale hdrBase [fileW]).ratelimitAfter = none :=
  admin_elapsed_ratelimit_cleared cfgW envW uAdminStale hdrBase [fileW] 5
    (by rfl) (by rfl) (by decide) (by rfl)

/-- C7: when the image-compression-percent header is present and NaN or outside
`[0, 100]`, the request is answered with a BadRequest and the effect trace is
empty: no attached file is validated, no record is created, no blob or chunk is
written. -/
theorem invalid_compression_percent_rejected_before_files (cfg : Config) (env : Env)
    (u : User) (hdr : Headers) (files : List FileInput)
    (h : hdr.imageCompressionPercent = some none
      ∨ ∃ q, hdr.imageCompressionPercent = some (some q) ∧ (q < 0 ∨ 100 < q)) :
    ∃ e, handlerBody cfg env u hdr files = (.badRequest e, []) := by
  have hicp : ∃ e, parsePercent hdr.imageCompressionPercent = .error e := by
    rcases h with h | ⟨q, hq, hrange⟩
    · exact ⟨"invalid image compression percent (invalid number)", by rw [h]; rfl⟩
    · refine ⟨"invalid image compression percent (% < 0 || % > 100)", ?_⟩
      rw [hq]
      simp [parsePercent, hrange]
  obtain ⟨e, he⟩ := hicp
  cases hce : computeExpiry env cfg hdr with
  | error e2 =>
    refine ⟨e2, ?_⟩
    unfold handlerBody
    rw [hce]
  | ok p =>
    refine ⟨e, ?_⟩
    unfold handlerBody
    rw [hce]
    obtain ⟨expiry, respExpiry⟩ := p
    rw [he]

theorem invalid_compression_percent_rejected_before_files_witness :
    ∃ e, handlerBody cfgW envW uW hdrBadIcp [fileW] = (.badRequest e, []) :=
  invalid_compression_percent_rejected_before_files cfgW envW uW hdrBadIcp [fileW]
    (Or.inr ⟨150, rfl, Or.inr (by decide)⟩)

/-- C1 (amended): when the submitted ranges leave a gap or overlap over
`[0, total)`, the finalize-time reassembly (the worker step, modelled from the
spec) fails with a ReassemblyError — but a FileRecord HAS been created for the
upload: the handler creates it while handling the last-chunk request, before
the reassembly worker runs. -/
theorem reassembly_fails_but_record_already_created
    (chunks : List Chunk) (total : Nat)
    (hcov : exactCoverB (chunks.map fun c => (c.start, c.stop)) total = false)
    (cfg : Config) (env : Env) (u : User) (hdr : Headers) (fmt : String) (folderToAdd : Option Int)
    (hlast : hdr.chunkLastchunk = some "true")
    (hnoconf : ¬(fmt = "name" ∧ env.existingNames.contains (hdr.chunkFilename.getD "") = true)) :
    reassemble chunks total = .error "ReassemblyError"
    ∧ containsCreated (chunkedBranch cfg env u hdr fmt folderToAdd).2 = true := by
  constructor
  · unfold reassemble
    rw [if_neg (by simp [hcov])]
  · unfold chunkedBranch
    rw [if_neg hnoconf]
    simp [hlast, containsCreated]

theorem reassembly_fails_but_record_already_created_witness :
    reassemble gapChunks 10 = .error "ReassemblyError"
    ∧ containsCreated (chunkedBranch cfgW envW uW hdrLastChunk "random" none).2 = true :=
  reassembly_fails_but_record_already_created gapChunks 10 (by decide)
    cfgW envW uW hdrLastChunk "random" none (by rfl) (by decide)

/-- C1 counterexample: chunks covering `[0,5)` and `[6,10)` of a 10-byte upload
leave byte 5 uncovered, so reassembly fails — yet handling the last-chunk
request has already created a FileRecord for that upload, refuting "no
FileRecord is created". -/
theorem reassembly_gap_still_creates_record_counterexample :
    exactCoverB (gapChunks.map fun c => (c.start, c.stop)) 10 = false
    ∧ reassemble gapChunks 10 = .error "ReassemblyError"
    ∧ containsCreated (handler cfgW envW uW hdrLastChunk [fileW]).events = true :=
  ⟨by decide, by rfl, by rfl⟩

theorem processFile_ok (cfg : Config) (env : Env) (u : User) (hdr : Headers) (fmt : String)
    (icp : Option Rat) (mv : Option Int) (expiry : Option Nat) (folderToAdd : Option Int)
    (dbNames : List String) (i : Nat) (f : FileInput) (resp : RespState)
    (hval : validateFile cfg env hdr u fmt dbNames i f = none) :
    ∃ r0 resp2 db2,
      processFile cfg env u hdr fmt icp mv expiry folderToAdd dbNames i f resp
        = (.ok (resp2, db2), [.checkRun i, .created r0, .saved r0.name])
      ∧ r0.expiresAt = expiry
      ∧ resp2.expiresAt = resp.expiresAt
      ∧ resp2.files = resp.files ++ [urlOfFile cfg env u hdr fmt icp f]
      ∧ r0.mimetype = storedMimetype cfg env hdr icp f (env.decodeURI f.originalname)
      ∧ (cfg.exifEnabled = true → cfg.exifRemoveGps = true →
          strStartsWith r0.mimetype "image/" = true →
          resp2.removedGps = some env.gpsStripOk) := by
  unfold processFile
  rw [hval]
  refine ⟨_, _, _, rfl, rfl, ?_, ?_, rfl, ?_⟩
  · rw [apply_ite RespState.expiresAt]
    simp
  · rw [apply_ite RespState.files]
    simp
  · intro h1 h2 h3
    rw [if_pos ⟨h1, h2, h3⟩]

theorem handlerBody_single_ok (cfg : Config) (env : Env) (u : User) (hdr : Headers)
    (f : FileInput) (expiry respExpiry : Option Nat) (icp : Option Rat) (mv : Option Int)
    (folderToAdd : Option Int)
    (hce : computeExpiry env cfg hdr = .ok (expiry, respExpiry))
    (hicp : parsePercent hdr.imageCompressionPercent = .ok icp)
    (hmv : parseMaxViews hdr.maxViews = .ok mv)
    (hfol : folderStep env u hdr.folder = .ok folderToAdd)
    (hnc : (isTruthy hdr.contentRange && cfg.chunksEnabled) = false)
    (hval : validateFile cfg env hdr u (formatOf cfg hdr) env.existingNames 0 f = none)
    (hnj : isTruthy hdr.noJson = false) :
    ∃ resp r0,
      handlerBody cfg env u hdr [f] = (.jsonOk resp, [.checkRun 0, .created r0, .saved r0.name])
      ∧ r0.expiresAt = expiry
      ∧ resp.expiresAt = respExpiry
      ∧ resp.files = [urlOfFile cfg env u hdr (formatOf cfg hdr) icp f]
      ∧ r0.mimetype = storedMimetype cfg env hdr icp f (env.decodeURI f.originalname)
      ∧ (cfg.exifEnabled = true → cfg.exifRemoveGps = true →
          strStartsWith r0.mimetype "image/" = true →
          resp.removedGps = some env.gpsStripOk) := by
  obtain ⟨r0, resp2, db2, hpf, hexp, hrespexp, hfiles, hmime, hgps⟩ :=
    processFile_ok cfg env u hdr (formatOf cfg hdr) icp mv expiry folderToAdd
      env.existingNames 0 f
      { files := [], expiresAt := respExpiry, removedGps := none,
        assumedMimetype := none, folder := folderToAdd } hval
  refine ⟨resp2, r0, ?_, hexp, by rw [hrespexp], by rw [hfiles]; rfl, hmime, hgps⟩
  simp only [handlerBody, hce, hicp, hmv, hfol, hnc, runFiles, hpf, hnj,
    List.length_cons, List.length_nil, Bool.false_eq_true, if_false, List.append_nil,
    Nat.zero_add, Nat.reduceBEq, beq_self_eq_true]

/-- C8: when GPS stripping is attempted on an image single-shot upload and the
strip fails, the request still succeeds with the 200 JSON response: its
removed_gps flag is false and its files list carries the file's URL — the
failure never aborts the upload. -/
theorem gps_strip_failure_still_succeeds (cfg : Config) (env : Env) (u : User) (hdr : Headers)
    (f : FileInput) (expiry respExpiry : Option Nat) (icp : Option Rat) (mv : Option Int)
    (folderToAdd : Option Int)
    (hce : computeExpiry env cfg hdr = .ok (expiry, respExpiry))
    (hicp : parsePercent hdr.imageCompressionPercent = .ok icp)
    (hmv : parseMaxViews hdr.maxViews = .ok mv)
    (hfol : folderStep env u hdr.folder = .ok folderToAdd)
    (hnc : (isTruthy hdr.contentRange && cfg.chunksEnabled) = false)
    (hval : validateFile cfg env hdr u (formatOf cfg hdr) env.existingNames 0 f = none)
    (hnj : isTruthy hdr.noJson = false)
    (hexif : cfg.exifEnabled = true) (hrg : cfg.exifRemoveGps = true)
    (himg : strStartsWith (storedMimetype cfg env hdr icp f (env.decodeURI f.originalname)) "image/" = true)
    (hfail : env.gpsStripOk = false) :
    ∃ resp, (handlerBody cfg env u hdr [f]).1 = .jsonOk resp
      ∧ resp.removedGps = some false
      ∧ resp.files = [urlOfFile cfg env u hdr (formatOf cfg hdr) icp f] := by
  obtain ⟨resp, r0, heq, _, _, hfiles, hmime, hgps⟩ :=
    handlerBody_single_ok cfg env u hdr f expiry respExpiry icp mv folderToAdd
      hce hicp hmv hfol hnc hval hnj
  refine ⟨resp, by rw [heq], ?_, hfiles⟩
  have hrem := hgps hexif hrg (by rw [hmime]; exact himg)
  rw [hrem, hfail]

theorem gps_strip_failure_still_succeeds_witness :
    ∃ resp, (handlerBody cfgW envW uW hdrBase [fileW]).1 = .jsonOk resp
      ∧ resp.removedGps = some false
      ∧ resp.files = [urlOfFile cfgW envW uW hdrBase (formatOf cfgW hdrBase) none fileW] :=
  gps_strip_failure_still_succeeds cfgW envW uW hdrBase fileW none none none none none
    (by rfl) (by rfl) (by rfl) (by rfl) (by rfl) (by rfl) (by rfl) (by rfl) (by rfl)
    (by rfl) (by rfl)

/-- C9: when a default expiration is configured and both it and the client's
expires-at header parse, a single-shot upload's FileRecord is created with the
expiry derived from the configured default — overriding the client-supplied
expiry — while the response's expiresAt field still reports the value parsed
from the client's header. -/
theorem default_expiration_overrides_record_expiry (cfg : Config) (env : Env) (u : User)
    (hdr : Headers) (f : FileInput) (dClient dDef : Nat) (icp : Option Rat) (mv : Option Int)
    (folderToAdd : Option Int)
    (hh : isTruthy hdr.expiresAt = true)
    (hpc : env.parseExpiry (hdr.expiresAt.getD "") = .ok dClient)
    (hd : isTruthy cfg.defaultExpiration = true)
    (hpd : env.parseExpiry (cfg.defaultExpiration.getD "") = .ok dDef)
    (hicp : parsePercent hdr.imageCompressionPercent = .ok icp)
    (hmv : parseMaxViews hdr.maxViews = .ok mv)
    (hfol : folderStep env u hdr.folder = .ok folderToAdd)
    (hnc : (isTruthy hdr.contentRange && cfg.chunksEnabled) = false)
    (hval : validateFile cfg env hdr u (formatOf cfg hdr) env.existingNames 0 f = none)
    (hnj : isTruthy hdr.noJson = false) :
    ∃ resp r0,
      handlerBody cfg env u hdr [f] = (.jsonOk resp, [.checkRun 0, .created r0, .saved r0.name])
      ∧ r0.expiresAt = some dDef
      ∧ resp.expiresAt = some dClient := by
  have hce : computeExpiry env cfg hdr = .ok (some dDef, some dClient) := by
    simp [computeExpiry, hh, hpc, hd, hpd]
  obtain ⟨resp, r0, heq, hexp, hrexp, _, _, _⟩ :=
    handlerBody_single_ok cfg env u hdr f (some dDef) (some dClient) icp mv folderToAdd
      hce hicp hmv hfol hnc hval hnj
  exact ⟨resp, r0, heq, hexp, hrexp⟩

theorem default_expiration_overrides_record_expiry_witness :
    ∃ resp r0,
      handlerBody cfgDefaultExp envW uW hdrExpiry [fileW]
        = (.jsonOk resp, [.checkRun 0, .created r0, .saved r0.name])
      ∧ r0.expiresAt = some 200
      ∧ resp.expiresAt = some 100 :=
  default_expiration_overrides_record_expiry cfgDefaultExp envW uW hdrExpiry fileW 100 200
    none none none
    (by rfl) (by rfl) (by rfl) (by rfl) (by rfl) (by rfl) (by rfl) (by rfl) (by rfl) (by rfl)

end Zipline
